import Mathlib

/-!
Verification development for the `semantic_skeletonizer` repository
(`src/main.rs`): a TypeScript/TSX skeletonizing MCP server.  The AST model
below is a shallow embedding of the swc TypeScript AST fragment that the
program manipulates (`Skeletonizer` visitor, `extract_ir`, the JSON-RPC
dispatch in `main`, `perform_initial_sweep`, `watch_filesystem`).
-/

set_option maxHeartbeats 1000000

/-- Substring containment, the model of Rust `str::contains` used at
`main.rs:90`. -/
def containsSub (s pat : String) : Bool :=
  decide (List.IsInfix pat.data s.data)

/-- Kind of a variable declaration (`var`/`let`/`const`). -/
inductive VarKind where
  | varK
  | letK
  | constK
deriving DecidableEq, Repr

mutual

/-- Expressions of the modelled swc AST.  Arrow expressions carry a
`BlockStmtOrExpr`-style body; function expressions carry a `Function`
(here `Fn`) node. -/
inductive Expr where
  | lit (s : String)
  | ident (s : String)
  | arrow (params : List String) (body : ArrowBody)
  | fnExpr (name : Option String) (f : Fn)
  | call (callee : Expr) (args : List Expr)
  | object (fields : List ObjField)
  | array (elems : List Expr)
deriving Repr

/-- Model of swc `BlockStmtOrExpr`, the body of an arrow expression. -/
inductive ArrowBody where
  | blockStmt (stmts : List Stmt)
  | expr (e : Expr)
deriving Repr

/-- A key/value field of an object literal. -/
inductive ObjField where
  | kv (key : String) (val : Expr)
deriving Repr

/-- Model of swc `Function`: parameters and an optional block body (the
body is `none` for ambient declarations and overload signatures). -/
inductive Fn where
  | mk (params : List String) (body : Option (List Stmt))
deriving Repr

/-- Statements. -/
inductive Stmt where
  | decl (d : Decl)
  | exprStmt (e : Expr)
  | ret (e : Option Expr)
  | block (stmts : List Stmt)
deriving Repr

/-- One declarator of a `var`/`let`/`const`/`using` declaration. -/
inductive VarDeclarator where
  | mk (name : String) (init : Option Expr)
deriving Repr

/-- Declarations (swc `Decl`).  `tsInterface`, `tsTypeAlias` and `tsEnum`
contain no function bodies, so their contents are kept as opaque text;
`tsModule` bodies are module-item lists (swc `TsModuleBlock`). -/
inductive Decl where
  | classDecl (name : String) (members : List ClassMember)
  | fnDecl (name : String) (f : Fn)
  | varDecl (kind : VarKind) (decls : List VarDeclarator)
  | tsInterface (name : String) (text : String)
  | tsTypeAlias (name : String) (text : String)
  | tsEnum (name : String) (text : String)
  | tsModule (name : String) (body : List ModuleItem)
  | usingDecl (decls : List VarDeclarator)
deriving Repr

/-- Class members.  swc models constructors (`Constructor`) as a node
distinct from `ClassMethod`; the constructor keeps an optional statement
body of its own and is not a `Function`. -/
inductive ClassMember where
  | method (name : String) (f : Fn)
  | ctor (params : List String) (body : Option (List Stmt))
  | prop (name : String) (value : Option Expr)
deriving Repr

/-- The declaration inside `export default`. -/
inductive DefaultDecl where
  | fnD (name : Option String) (f : Fn)
  | classD (name : Option String) (members : List ClassMember)
  | interfaceD (name : String) (text : String)
deriving Repr

/-- Module-level declarations (swc `ModuleDecl`), the nine variants
matched by `extract_ir` (`main.rs:159-169`). -/
inductive ModuleDecl where
  | importDecl (specifiers : List String) (src : String)
  | exportDecl (d : Decl)
  | exportNamed (specifiers : List String) (src : Option String)
  | exportDefaultDecl (d : DefaultDecl)
  | exportDefaultExpr (e : Expr)
  | exportAll (src : String)
  | tsImportEquals (name : String) (rhs : String)
  | tsExportAssignment (e : Expr)
  | tsNamespaceExport (name : String)
deriving Repr

/-- A top-level item: a module declaration or a bare statement. -/
inductive ModuleItem where
  | moduleDecl (d : ModuleDecl)
  | stmt (s : Stmt)
deriving Repr

end

/-- A parsed module (swc `Module`, renamed to avoid the Mathlib `Module`
class): its list of top-level items. -/
structure ModuleAst where
  body : List ModuleItem
deriving Repr

/-- The import filter of `Skeletonizer::visit_mut_module_items`
(`main.rs:87-95`): the source atom is rendered with `format!("{:?}", ..)`,
i.e. wrapped in quotes, and tested for the three style substrings.
(Debug escaping of exotic characters inside the specifier is not
modelled.) -/
def isStyleImport : ModuleItem → Bool
  | .moduleDecl (.importDecl _ src) =>
      let raw := "\"" ++ src ++ "\""
      containsSub raw ".css" || containsSub raw ".scss" || containsSub raw ".svg"
  | _ => false

mutual

/-- Action of the `Skeletonizer` visitor on expressions.  The override
`visit_mut_arrow_expr` (`main.rs:70-77`) visits children and then replaces
the whole body by an empty block; all other expression forms just recurse
into children (swc's default `visit_mut_children_with`). -/
def skelExpr : Expr → Expr
  | .lit s => .lit s
  | .ident s => .ident s
  | .arrow ps _ => .arrow ps (.blockStmt [])
  | .fnExpr n f => .fnExpr n (skelFn f)
  | .call c args => .call (skelExpr c) (skelExprList args)
  | .object fs => .object (skelObjFields fs)
  | .array es => .array (skelExprList es)

def skelExprList : List Expr → List Expr
  | [] => []
  | e :: es => skelExpr e :: skelExprList es

def skelObjFields : List ObjField → List ObjField
  | [] => []
  | .kv k v :: fs => .kv k (skelExpr v) :: skelObjFields fs

/-- `visit_mut_function` (`main.rs:63-68`): children are visited, then the
body's statements are cleared when a body is present. -/
def skelFn : Fn → Fn
  | .mk ps body =>
      .mk ps (match body with
              | none => none
              | some _ => some [])

def skelStmt : Stmt → Stmt
  | .decl d => .decl (skelDecl d)
  | .exprStmt e => .exprStmt (skelExpr e)
  | .ret e => .ret (skelOptExpr e)
  | .block ss => .block (skelStmtList ss)

def skelOptExpr : Option Expr → Option Expr
  | none => none
  | some e => some (skelExpr e)

def skelStmtList : List Stmt → List Stmt
  | [] => []
  | s :: ss => skelStmt s :: skelStmtList ss

def skelDecl : Decl → Decl
  | .classDecl n ms => .classDecl n (skelMembers ms)
  | .fnDecl n f => .fnDecl n (skelFn f)
  | .varDecl k ds => .varDecl k (skelVarDecls ds)
  | .tsInterface n t => .tsInterface n t
  | .tsTypeAlias n t => .tsTypeAlias n t
  | .tsEnum n t => .tsEnum n t
  | .tsModule n body => .tsModule n (skelModuleItems body)
  | .usingDecl ds => .usingDecl (skelVarDecls ds)

def skelVarDecls : List VarDeclarator → List VarDeclarator
  | [] => []
  | .mk n i :: ds => .mk n (skelOptExpr i) :: skelVarDecls ds

def skelMembers : List ClassMember → List ClassMember
  | [] => []
  | m :: ms => skelMember m :: skelMembers ms

/-- `visit_mut_class_method` (`main.rs:79-84`): children are visited
(which already clears the inner function's body via `visit_mut_function`),
then the body is cleared again.  Constructors are a distinct node kind and
only get the default child traversal: their own statement list is kept. -/
def skelMember : ClassMember → ClassMember
  | .method n f => .method n (skelFn f)
  | .ctor ps body => .ctor ps (skelOptStmts body)
  | .prop n v => .prop n (skelOptExpr v)

def skelOptStmts : Option (List Stmt) → Option (List Stmt)
  | none => none
  | some ss => some (skelStmtList ss)

/-- `visit_mut_module_items` (`main.rs:86-97`): style imports are removed
by `retain`, then children are visited.  The retain-then-visit loop is
fused here into one recursion; `skelModuleItems_eq_filter_map` below shows
it equals `filter` followed by `map`. -/
def skelModuleItems : List ModuleItem → List ModuleItem
  | [] => []
  | i :: is =>
      if isStyleImport i then skelModuleItems is
      else skelModuleItem i :: skelModuleItems is

def skelModuleItem : ModuleItem → ModuleItem
  | .moduleDecl d => .moduleDecl (skelModuleDecl d)
  | .stmt s => .stmt (skelStmt s)

def skelModuleDecl : ModuleDecl → ModuleDecl
  | .importDecl sp src => .importDecl sp src
  | .exportDecl d => .exportDecl (skelDecl d)
  | .exportNamed sp src => .exportNamed sp src
  | .exportDefaultDecl d => .exportDefaultDecl (skelDefaultDecl d)
  | .exportDefaultExpr e => .exportDefaultExpr (skelExpr e)
  | .exportAll src => .exportAll src
  | .tsImportEquals n r => .tsImportEquals n r
  | .tsExportAssignment e => .tsExportAssignment (skelExpr e)
  | .tsNamespaceExport n => .tsNamespaceExport n

def skelDefaultDecl : DefaultDecl → DefaultDecl
  | .fnD n f => .fnD n (skelFn f)
  | .classD n ms => .classD n (skelMembers ms)
  | .interfaceD n t => .interfaceD n t

end

/-- The whole `Skeletonizer` pass on a module
(`module.visit_mut_with(&mut skeletonizer)`, `main.rs:192`). -/
def skelModule (m : ModuleAst) : ModuleAst :=
  ⟨skelModuleItems m.body⟩

-- === BODIES-EMPTY PREDICATES ===

mutual

/-- Every function expression and arrow expression reachable inside the
expression has an empty block body (a body-less ambient function counts
as empty). -/
def exprBE : Expr → Bool
  | .lit _ => true
  | .ident _ => true
  | .arrow _ b =>
      match b with
      | .blockStmt ss => ss.isEmpty
      | .expr _ => false
  | .fnExpr _ f => fnBE f
  | .call c args => exprBE c && exprListBE args
  | .object fs => objFieldsBE fs
  | .array es => exprListBE es

def exprListBE : List Expr → Bool
  | [] => true
  | e :: es => exprBE e && exprListBE es

def objFieldsBE : List ObjField → Bool
  | [] => true
  | .kv _ v :: fs => exprBE v && objFieldsBE fs

def fnBE : Fn → Bool
  | .mk _ body =>
      match body with
      | none => true
      | some ss => ss.isEmpty

def stmtBE : Stmt → Bool
  | .decl d => declBE d
  | .exprStmt e => exprBE e
  | .ret e => optExprBE e
  | .block ss => stmtListBE ss

def optExprBE : Option Expr → Bool
  | none => true
  | some e => exprBE e

def stmtListBE : List Stmt → Bool
  | [] => true
  | s :: ss => stmtBE s && stmtListBE ss

def declBE : Decl → Bool
  | .classDecl _ ms => membersBE ms
  | .fnDecl _ f => fnBE f
  | .varDecl _ ds => varDeclsBE ds
  | .tsInterface _ _ => true
  | .tsTypeAlias _ _ => true
  | .tsEnum _ _ => true
  | .tsModule _ body => itemListBE body
  | .usingDecl ds => varDeclsBE ds

def varDeclsBE : List VarDeclarator → Bool
  | [] => true
  | .mk _ i :: ds => optExprBE i && varDeclsBE ds

def membersBE : List ClassMember → Bool
  | [] => true
  | m :: ms => memberBE m && membersBE ms

/-- Class methods must have empty-or-absent bodies; constructor statement
lists are traversed (looking for nested functions/arrows) but the
constructor's own body is not itself required to be empty, since the
claim ranges over function declarations, function expressions, class
methods and arrows only. -/
def memberBE : ClassMember → Bool
  | .method _ f => fnBE f
  | .ctor _ body => optStmtsBE body
  | .prop _ v => optExprBE v

def optStmtsBE : Option (List Stmt) → Bool
  | none => true
  | some ss => stmtListBE ss

def itemListBE : List ModuleItem → Bool
  | [] => true
  | i :: is => itemBE i && itemListBE is

/-- All function declarations, function expressions, class methods and
arrow expressions reachable in the item have empty block bodies. -/
def itemBE : ModuleItem → Bool
  | .moduleDecl d => moduleDeclBE d
  | .stmt s => stmtBE s

def moduleDeclBE : ModuleDecl → Bool
  | .importDecl _ _ => true
  | .exportDecl d => declBE d
  | .exportNamed _ _ => true
  | .exportDefaultDecl d => defaultDeclBE d
  | .exportDefaultExpr e => exprBE e
  | .exportAll _ => true
  | .tsImportEquals _ _ => true
  | .tsExportAssignment e => exprBE e
  | .tsNamespaceExport _ => true

def defaultDeclBE : DefaultDecl → Bool
  | .fnD _ f => fnBE f
  | .classD _ ms => membersBE ms
  | .interfaceD _ _ => true

end

-- === PRINTER ===

/-- Modelled from the spec: the external code printer of §4.1
(`stringify_item` / swc `Emitter`, `main.rs:141-153`), which is a library
outside this repository.  The model is a plain structural pretty-printer;
the claims depend only on which AST node each printed string comes from,
never on the concrete text. -/
def printParams (ps : List String) : String :=
  "(" ++ String.intercalate (", ") ps ++ ")"

mutual

def printExpr : Expr → String
  | .lit s => s
  | .ident s => s
  | .arrow ps b => printParams ps ++ " => " ++ printArrowBody b
  | .fnExpr n f =>
      "function " ++ n.getD "" ++ printFn f
  | .call c args => printExpr c ++ "(" ++ String.intercalate (", ") (printExprList args) ++ ")"
  | .object fs => "\x7b " ++ String.intercalate (", ") (printObjFields fs) ++ " \x7d"
  | .array es => "[" ++ String.intercalate (", ") (printExprList es) ++ "]"

def printExprList : List Expr → List String
  | [] => []
  | e :: es => printExpr e :: printExprList es

def printObjFields : List ObjField → List String
  | [] => []
  | .kv k v :: fs => (k ++ ": " ++ printExpr v) :: printObjFields fs

def printArrowBody : ArrowBody → String
  | .blockStmt ss => "\x7b" ++ String.intercalate (" ") (printStmtList ss) ++ "\x7d"
  | .expr e => printExpr e

def printFn : Fn → String
  | .mk ps body =>
      printParams ps ++
        (match body with
         | none => ";"
         | some ss => " \x7b" ++ String.intercalate (" ") (printStmtList ss) ++ "\x7d")

def printStmt : Stmt → String
  | .decl d => printDecl d
  | .exprStmt e => printExpr e ++ ";"
  | .ret e =>
      (match e with
       | none => "return;"
       | some x => "return " ++ printExpr x ++ ";")
  | .block ss => "\x7b" ++ String.intercalate (" ") (printStmtList ss) ++ "\x7d"

def printStmtList : List Stmt → List String
  | [] => []
  | s :: ss => printStmt s :: printStmtList ss

def printVarDecls : List VarDeclarator → List String
  | [] => []
  | .mk n i :: ds =>
      (n ++ (match i with
             | none => ""
             | some e => " = " ++ printExpr e)) :: printVarDecls ds

def printDecl : Decl → String
  | .classDecl n ms =>
      "class " ++ n ++ " \x7b" ++ String.intercalate (" ") (printMembers ms) ++ "\x7d"
  | .fnDecl n f => "function " ++ n ++ printFn f
  | .varDecl k ds =>
      (match k with
       | .varK => "var "
       | .letK => "let "
       | .constK => "const ") ++ String.intercalate (", ") (printVarDecls ds) ++ ";"
  | .tsInterface n t => "interface " ++ n ++ " \x7b" ++ t ++ "\x7d"
  | .tsTypeAlias n t => "type " ++ n ++ " = " ++ t ++ ";"
  | .tsEnum n t => "enum " ++ n ++ " \x7b" ++ t ++ "\x7d"
  | .tsModule n body =>
      "namespace " ++ n ++ " \x7b" ++ String.intercalate (" ") (printItemList body) ++ "\x7d"
  | .usingDecl ds => "using " ++ String.intercalate (", ") (printVarDecls ds) ++ ";"

def printMembers : List ClassMember → List String
  | [] => []
  | m :: ms => printMember m :: printMembers ms

def printMember : ClassMember → String
  | .method n f => n ++ printFn f
  | .ctor ps body =>
      "constructor" ++ printParams ps ++
        (match body with
         | none => ";"
         | some ss => " \x7b" ++ String.intercalate (" ") (printStmtList ss) ++ "\x7d")
  | .prop n v =>
      n ++ (match v with
            | none => ";"
            | some e => " = " ++ printExpr e ++ ";")

def printItemList : List ModuleItem → List String
  | [] => []
  | i :: is => printModuleItem i :: printItemList is

def printModuleItem : ModuleItem → String
  | .moduleDecl d => printModuleDecl d
  | .stmt s => printStmt s

def printDefaultDecl : DefaultDecl → String
  | .fnD n f => "function " ++ n.getD "" ++ printFn f
  | .classD n ms =>
      "class " ++ n.getD "" ++ " \x7b" ++ String.intercalate (" ") (printMembers ms) ++ "\x7d"
  | .interfaceD n t => "interface " ++ n ++ " \x7b" ++ t ++ "\x7d"

def printModuleDecl : ModuleDecl → String
  | .importDecl sp src =>
      "import " ++ String.intercalate (", ") sp ++ " from \"" ++ src ++ "\";"
  | .exportDecl d => "export " ++ printDecl d
  | .exportNamed sp src =>
      "export \x7b " ++ String.intercalate (", ") sp ++ " \x7d" ++
        (match src with
         | none => ";"
         | some s => " from \"" ++ s ++ "\";")
  | .exportDefaultDecl d => "export default " ++ printDefaultDecl d
  | .exportDefaultExpr e => "export default " ++ printExpr e ++ ";"
  | .exportAll src => "export * from \"" ++ src ++ "\";"
  | .tsImportEquals n r => "import " ++ n ++ " = " ++ r ++ ";"
  | .tsExportAssignment e => "export = " ++ printExpr e ++ ";"
  | .tsNamespaceExport n => "export as namespace " ++ n ++ ";"

end

-- === EXTRACTION (`extract_ir`, `main.rs:155-186`) ===

/-- The per-file skeleton record (`main.rs:48-56`). -/
structure FileSkeleton where
  imports : List String := []
  exports : List String := []
  functions : List String := []
  interfaces : List String := []
  classes : List String := []
  «variables» : List String := []
deriving Repr, DecidableEq, Inhabited

/-- One iteration of the `for item in &module.body` loop of `extract_ir`:
push the printed item onto the field selected by its kind
(`main.rs:157-184`). -/
def extractStep (ir : FileSkeleton) (item : ModuleItem) : FileSkeleton :=
  match item with
  | .moduleDecl d =>
      match d with
      | .importDecl _ _ => { ir with imports := ir.imports ++ [printModuleDecl d] }
      | .exportDecl _ => { ir with exports := ir.exports ++ [printModuleDecl d] }
      | .exportNamed _ _ => { ir with exports := ir.exports ++ [printModuleDecl d] }
      | .exportDefaultDecl _ => { ir with exports := ir.exports ++ [printModuleDecl d] }
      | .exportDefaultExpr _ => { ir with exports := ir.exports ++ [printModuleDecl d] }
      | .exportAll _ => { ir with exports := ir.exports ++ [printModuleDecl d] }
      | .tsImportEquals _ _ => { ir with imports := ir.imports ++ [printModuleDecl d] }
      | .tsExportAssignment _ => { ir with exports := ir.exports ++ [printModuleDecl d] }
      | .tsNamespaceExport _ => { ir with exports := ir.exports ++ [printModuleDecl d] }
  | .stmt s =>
      match s with
      | .decl dd =>
          match dd with
          | .classDecl _ _ => { ir with classes := ir.classes ++ [printDecl dd] }
          | .fnDecl _ _ => { ir with functions := ir.functions ++ [printDecl dd] }
          | .varDecl _ _ => { ir with «variables» := ir.«variables» ++ [printDecl dd] }
          | .tsInterface _ _ => { ir with interfaces := ir.interfaces ++ [printDecl dd] }
          | .tsTypeAlias _ _ => { ir with interfaces := ir.interfaces ++ [printDecl dd] }
          | .tsEnum _ _ => { ir with interfaces := ir.interfaces ++ [printDecl dd] }
          | .tsModule _ _ => { ir with interfaces := ir.interfaces ++ [printDecl dd] }
          | .usingDecl _ => ir
      | _ => ir

/-- `extract_ir` (`main.rs:155-186`): fold the loop body over the module's
top-level items, starting from the all-empty skeleton. -/
def extract_ir (m : ModuleAst) : FileSkeleton :=
  m.body.foldl extractStep default

/-- The six fields of a `FileSkeleton` (named `SkField` to avoid the Mathlib `Field` class). -/
inductive SkField where
  | imports
  | exports
  | functions
  | interfaces
  | classes
  | variables
deriving DecidableEq, Repr

/-- The routing table of `extract_ir`: which field (if any) receives a
given top-level item.  `none` exactly for bare statements and `using`
declarations. -/
def route : ModuleItem → Option SkField
  | .moduleDecl d =>
      match d with
      | .importDecl _ _ => some .imports
      | .exportDecl _ => some .exports
      | .exportNamed _ _ => some .exports
      | .exportDefaultDecl _ => some .exports
      | .exportDefaultExpr _ => some .exports
      | .exportAll _ => some .exports
      | .tsImportEquals _ _ => some .imports
      | .tsExportAssignment _ => some .exports
      | .tsNamespaceExport _ => some .exports
  | .stmt s =>
      match s with
      | .decl dd =>
          match dd with
          | .classDecl _ _ => some .classes
          | .fnDecl _ _ => some .functions
          | .varDecl _ _ => some .variables
          | .tsInterface _ _ => some .interfaces
          | .tsTypeAlias _ _ => some .interfaces
          | .tsEnum _ _ => some .interfaces
          | .tsModule _ _ => some .interfaces
          | .usingDecl _ => none
      | _ => none

/-- Project a field out of a skeleton. -/
def FileSkeleton.field (ir : FileSkeleton) : SkField → List String
  | .imports => ir.imports
  | .exports => ir.exports
  | .functions => ir.functions
  | .interfaces => ir.interfaces
  | .classes => ir.classes
  | .variables => ir.«variables»

/-- The items routed to field `f`, printed, in source order. -/
def fieldStrings (f : SkField) (items : List ModuleItem) : List String :=
  items.filterMap (fun i => if route i = some f then some (printModuleItem i) else none)

/-- An item is a bare statement (not a declaration) or a `using`
declaration: the top-level constructs that `extract_ir` drops. -/
def isBareOrUsing : ModuleItem → Bool
  | .stmt (.decl (.usingDecl _)) => true
  | .stmt (.decl _) => false
  | .stmt _ => true
  | .moduleDecl _ => false

-- === JSON MODEL (serde_json `Value`) ===

/-- Model of `serde_json::Value`.  Numbers are modelled as integers (the
only numbers the program ever produces are error codes and ids). -/
inductive Json where
  | null
  | bool (b : Bool)
  | num (n : Int)
  | str (s : String)
  | arr (elems : List Json)
  | obj (fields : List (String × Json))
deriving Repr

/-- Object field lookup, the model of `Value::get(key)` on objects
(first matching key). -/
def Json.getKey : Json → String → Option Json
  | .obj fs, k => (fs.find? (fun kv => kv.1 = k)).map (·.2)
  | _, _ => none

/-- Model of `Value::as_str`. -/
def Json.asStr : Json → Option String
  | .str s => some s
  | _ => none

/-- Escape one character as serde_json does for the characters the
program can actually emit (quote and backslash; control-character
escapes are not modelled). -/
def escChar (c : Char) : String :=
  if c = '"' then "\\\"" else if c = '\\' then "\\\\" else String.singleton c

/-- String-body escaping for JSON serialization. -/
def escapeStr (s : String) : String :=
  String.join (s.data.map escChar)

mutual

/-- Model of `serde_json::to_string` (compact form). -/
def serializeJson : Json → String
  | .null => "null"
  | .bool true => "true"
  | .bool false => "false"
  | .num n => toString n
  | .str s => "\"" ++ escapeStr s ++ "\""
  | .arr xs => "[" ++ String.intercalate (",") (serializeJsonList xs) ++ "]"
  | .obj fs => "\x7b" ++ String.intercalate (",") (serializeJsonFields fs) ++ "\x7d"

def serializeJsonList : List Json → List String
  | [] => []
  | j :: js => serializeJson j :: serializeJsonList js

def serializeJsonFields : List (String × Json) → List String
  | [] => []
  | kv :: fs =>
      ("\"" ++ escapeStr kv.1 ++ "\":" ++ serializeJson kv.2) :: serializeJsonFields fs

end

-- === MCP PROTOCOL STRUCTURES (`main.rs:21-44`) ===

/-- The `Request` envelope (`main.rs:21-27`).  Per serde semantics for
`Option<Value>`, an absent field and a JSON `null` both decode to
`none`. -/
structure Request where
  jsonrpc : String
  id : Option Json
  method : String
  params : Option Json
deriving Repr

/-- The `Response` envelope (`main.rs:29-37`); `result`/`error` are
skipped during serialization when `none`. -/
structure Response where
  jsonrpc : String
  id : Option Json
  result : Option Json
  error : Option Json
deriving Repr

/-- The `Notification` envelope (`main.rs:39-44`). -/
structure Notification where
  jsonrpc : String
  method : String
  params : Json
deriving Repr

/-- Model of `serde_json::from_str::<Request>` applied to an
already-parsed JSON value: the serde derive requires an object with
string fields `jsonrpc` and `method`; `id` and `params` are optional
(`null` decodes to `none`). -/
def decodeRequest (j : Json) : Option Request :=
  match j with
  | .obj _ =>
      match (j.getKey ("jsonrpc")).bind Json.asStr with
      | none => none
      | some ver =>
          match (j.getKey ("method")).bind Json.asStr with
          | none => none
          | some m =>
              let idv :=
                match j.getKey ("id") with
                | none => none
                | some .null => none
                | some v => some v
              let pv :=
                match j.getKey ("params") with
                | none => none
                | some .null => none
                | some v => some v
              some { jsonrpc := ver, id := idv, method := m, params := pv }
  | _ => none

-- === INDEX AND FILE PROCESSING ===

/-- The Index: model of the `DashMap<String, FileSkeleton>` in `AppState`
(`main.rs:102-104`) as an association list with unique keys maintained by
`insertIndex`. -/
abbrev Index := List (String × FileSkeleton)

/-- Model of `DashMap::get`. -/
def lookupIndex (idx : Index) (k : String) : Option FileSkeleton :=
  (idx.find? (fun kv => kv.1 = k)).map (·.2)

/-- Model of `DashMap::insert`: replace the value under an existing key,
otherwise add the entry. -/
def insertIndex (idx : Index) (k : String) (v : FileSkeleton) : Index :=
  if (idx.find? (fun kv => kv.1 = k)).isSome then
    idx.map (fun kv => if kv.1 = k then (k, v) else kv)
  else idx ++ [(k, v)]

/-- Emptiness of the index (`DashMap::is_empty`). -/
def indexIsEmpty (idx : Index) : Bool :=
  idx.isEmpty

/-- Model of Rust `Path::extension().to_string_lossy()`: the text after
the last dot of the final path component; none when the name has no dot
or is a dot-file like `.gitignore`. -/
def pathExt (p : String) : Option String :=
  let name := ((p.splitOn ("/")).getLast?).getD ""
  let parts := name.splitOn (".")
  match parts with
  | [] => none
  | [_] => none
  | ["", _] => none
  | _ => parts.getLast?

/-- The extension test shared by sweep and watcher
(`main.rs:202-204` and `main.rs:234-236`). -/
def isTsPath (p : String) : Bool :=
  match pathExt p with
  | some e => e = "ts" || e = "tsx"
  | none => false

/-- `skeletonize_file` (`main.rs:188-195`): parse, run the `Skeletonizer`
pass, extract.  Parsing and file loading are external; they enter as an
oracle `parse` from path to optional module (`none` models any load or
parse failure). -/
def skeletonize_file (parse : String → Option ModuleAst) (path : String) :
    Option FileSkeleton :=
  (parse path).map (fun m => extract_ir (skelModule m))

/-- One file of the initial sweep (`main.rs:201-210`): only `.ts`/`.tsx`
files are considered, and the index is written only when
`skeletonize_file` succeeds. -/
def sweepStep (parse : String → Option ModuleAst) (idx : Index) (path : String) : Index :=
  if isTsPath path then
    match skeletonize_file parse path with
    | some ir => insertIndex idx path ir
    | none => idx
  else idx

/-- `perform_initial_sweep` (`main.rs:197-215`) over the list of file
paths the walker yields (directories and ignored files are outside the
model: the walker is an external library). -/
def perform_initial_sweep (parse : String → Option ModuleAst)
    (files : List String) (idx : Index) : Index :=
  files.foldl (sweepStep parse) idx

/-- Kind of a filesystem event (`notify::EventKind`), collapsed to the
only distinction `watch_filesystem` makes (`main.rs:231`). -/
inductive EventKind where
  | modify
  | other
deriving DecidableEq, Repr

/-- A filesystem event: its kind and affected paths. -/
structure FsEvent where
  kind : EventKind
  paths : List String
deriving Repr

/-- One path of a Modify event (`main.rs:234-244`): state is the index
together with the `changed` flag, set on each successful
reskeletonize. -/
def watchPathStep (parse : String → Option ModuleAst)
    (st : Index × Bool) (p : String) : Index × Bool :=
  if isTsPath p then
    match skeletonize_file parse p with
    | some ir => (insertIndex st.1 p ir, true)
    | none => st
  else st

/-- The inner loop over one Modify event's paths (`main.rs:232-245`):
`changed` starts out false. -/
def watchBatch (parse : String → Option ModuleAst) (idx : Index)
    (paths : List String) : Index × Bool :=
  paths.foldl (watchPathStep parse) (idx, false)

/-- Handling of one event by `watch_filesystem` (`main.rs:230-250`): only
Modify events are processed; the boolean is the single change tick sent
iff `changed` ended true (`main.rs:247-249`). -/
def watchEvent (parse : String → Option ModuleAst) (idx : Index)
    (ev : FsEvent) : Index × Bool :=
  match ev.kind with
  | .modify => watchBatch parse idx ev.paths
  | .other => (idx, false)

-- === SERVER DISPATCH (`main.rs:265-503`) ===

/-- A JSON-RPC error object as built throughout `main`. -/
def mkErr (code : Int) (msg : String) : Json :=
  .obj [("code", .num code), ("message", .str msg)]

/-- Repeated prefix stripping on character lists (Rust
`str::trim_start_matches`, which removes every successive occurrence of
the pattern). -/
def trimStartList (pat s : List Char) : List Char :=
  if h : pat ≠ [] ∧ pat.isPrefixOf s then
    trimStartList pat (s.drop pat.length)
  else s
termination_by s.length
decreasing_by
  have hpre : pat <+: s := by
    simpa [List.isPrefixOf_iff_prefix] using h.2
  have hle : pat.length ≤ s.length := hpre.length_le
  have hpos : 0 < pat.length := List.length_pos.mpr h.1
  simp only [List.length_drop]
  omega

/-- Model of `str::trim_start_matches` (`main.rs:374`). -/
def trim_start_matches (s pat : String) : String :=
  ⟨trimStartList pat.data s.data⟩

/-- Model of `str::starts_with` (`main.rs:373`). -/
def strStartsWith (s pat : String) : Bool :=
  pat.data.isPrefixOf s.data

/-- The `initialize` result (`main.rs:312-327`). -/
def initializeResult : Json :=
  .obj [("protocolVersion", .str ("2024-11-05")),
        ("capabilities",
          .obj [("resources", .obj [("subscribe", .bool true), ("listChanged", .bool true)]),
                ("tools", .obj [("listChanged", .bool false)])]),
        ("serverInfo",
          .obj [("name", .str ("semantic-skeletonizer")), ("version", .str ("0.1.0"))])]

/-- One file entry of `resources/list` (`main.rs:338-345`). -/
def resourceEntry (path : String) : Json :=
  .obj [("uri", .str ("skeleton://project/file/" ++ path)),
        ("name", .str ("Semantic Skeleton for " ++ path)),
        ("mimeType", .str ("application/json"))]

/-- The `resources/list` result (`main.rs:329-349`). -/
def resourcesListResult (idx : Index) : Json :=
  .obj [("resources",
         .arr (.obj [("uri", .str ("skeleton://project/global")),
                     ("name", .str ("Global Semantic Skeleton")),
                     ("mimeType", .str ("application/json"))]
               :: idx.map (fun kv => resourceEntry kv.1)))]

/-- serde serialization of a `FileSkeleton`, in struct field order
(`main.rs:48-56`). -/
def encodeSkeleton (sk : FileSkeleton) : Json :=
  .obj [("imports", .arr (sk.imports.map .str)),
        ("exports", .arr (sk.exports.map .str)),
        ("functions", .arr (sk.functions.map .str)),
        ("interfaces", .arr (sk.interfaces.map .str)),
        ("classes", .arr (sk.classes.map .str)),
        ("variables", .arr (sk.«variables».map .str))]

/-- The snapshot of the whole index as one JSON object (`main.rs:361-364`;
the `HashMap` iteration order is modelled as the index order). -/
def encodeIndex (idx : Index) : Json :=
  .obj (idx.map (fun kv => (kv.1, encodeSkeleton kv.2)))

/-- The successful `skeleton://project/global` read result
(`main.rs:365-371`). -/
def globalReadResult (idx : Index) : Json :=
  .obj [("contents",
         .arr [.obj [("uri", .str ("skeleton://project/global")),
                     ("mimeType", .str ("application/json")),
                     ("text", .str (serializeJson (encodeIndex idx)))]])]

/-- The successful per-file read result (`main.rs:376-382`). -/
def fileReadResult (uri : String) (sk : FileSkeleton) : Json :=
  .obj [("contents",
         .arr [.obj [("uri", .str uri),
                     ("mimeType", .str ("application/json")),
                     ("text", .str (serializeJson (encodeSkeleton sk)))]])]

/-- The `tools/list` result (`main.rs:398-426`). -/
def toolsListResult : Json :=
  .obj [("tools",
         .arr [.obj [("name", .str ("get_implementation")),
                     ("description", .str ("Extracts complete inner logic of a node.")),
                     ("inputSchema",
                       .obj [("type", .str ("object")),
                             ("properties",
                               .obj [("file_path", .obj [("type", .str ("string"))]),
                                     ("target_node", .obj [("type", .str ("string"))])]),
                             ("required", .arr [.str ("file_path"), .str ("target_node")])])],
               .obj [("name", .str ("list_functions")),
                     ("description", .str ("Lists all functions in a specific file.")),
                     ("inputSchema",
                       .obj [("type", .str ("object")),
                             ("properties",
                               .obj [("file_path", .obj [("type", .str ("string"))])]),
                             ("required", .arr [.str ("file_path")])])]])]

/-- A `tools/call` text content result (`main.rs:438-443` and
`main.rs:453-458`). -/
def toolContentResult (text : String) : Json :=
  .obj [("content", .arr [.obj [("type", .str ("text")), ("text", .str text)]])]

/-- The core of the request dispatch in `main` (`main.rs:310-473`): given
the method and params, compute the pair of local variables
(`response_value`, `error_value`).  Both start as `None`; branches that
never assign either leave the pair `(none, none)`.  `getImpl` is the
oracle for the external parse performed by `get_implementation`
(`main.rs:256-261`): `some` is the serialized AST of a parseable file,
`none` any failure. -/
def dispatchCore (getImpl : String → Option Json) (idx : Index)
    (method : String) (params : Option Json) : Option Json × Option Json :=
  match method with
  | "initialize" => (some initializeResult, none)
  | "resources/list" => (some (resourcesListResult idx), none)
  | "resources/read" =>
      match params with
      | none => (none, none)
      | some p =>
          match (p.getKey ("uri")).bind Json.asStr with
          | none => (none, none)
          | some uri =>
              if uri = "skeleton://project/global" then
                if indexIsEmpty idx then
                  (none, some (mkErr (-32603) ("Graph is empty. No files scanned or found.")))
                else
                  (some (globalReadResult idx), none)
              else if strStartsWith uri ("skeleton://project/file/") then
                match lookupIndex idx (trim_start_matches uri ("skeleton://project/file/")) with
                | some sk => (some (fileReadResult uri sk), none)
                | none => (none, some (mkErr (-32602) ("File not found in graph.")))
              else
                (none, some (mkErr (-32602) ("Invalid URI scheme for resource.")))
  | "tools/list" => (some toolsListResult, none)
  | "tools/call" =>
      match params with
      | none => (none, none)
      | some p =>
          let name := (((p.getKey ("name")).bind Json.asStr)).getD ""
          match name with
          | "get_implementation" =>
              match p.getKey ("arguments") with
              | none => (none, none)
              | some a =>
                  let fp := (((a.getKey ("file_path")).bind Json.asStr)).getD ""
                  match getImpl fp with
                  | some ast => (some (toolContentResult (serializeJson ast)), none)
                  | none => (none, some (mkErr (-32603) ("Failed to extract implementation")))
          | "list_functions" =>
              match p.getKey ("arguments") with
              | none => (none, none)
              | some a =>
                  let fp := (((a.getKey ("file_path")).bind Json.asStr)).getD ""
                  match lookupIndex idx fp with
                  | some sk =>
                      (some (toolContentResult (String.intercalate ("\n") sk.functions)), none)
                  | none => (none, some (mkErr (-32602) ("File not found in graph.")))
          | _ => (none, some (mkErr (-32601) ("Method not found")))
  | _ => (none, some (mkErr (-32601) ("Method not found")))

/-- Response emission (`main.rs:475-485`): a response is written only when
the request carries an id; it mirrors that id and carries the two
dispatch-produced optionals. -/
def dispatch (getImpl : String → Option Json) (idx : Index) (req : Request) :
    Option Response :=
  let rv := dispatchCore getImpl idx req.method req.params
  match req.id with
  | some i => some { jsonrpc := "2.0", id := some i, result := rv.1, error := rv.2 }
  | none => none

/-- The parse-error response of the malformed-line branch
(`main.rs:486-496`). -/
def parseErrorResponse : Response :=
  { jsonrpc := "2.0", id := none, result := none,
    error := some (mkErr (-32700) ("Parse error")) }

/-- One line of stdin as seen after `serde_json` parsing: either not valid
JSON at all (with the flag telling whether its trim is empty), or a parsed
JSON value. -/
inductive InputLine where
  | invalid (trimEmpty : Bool)
  | valid (j : Json)

/-- Handling of one stdin line (`main.rs:306` and `main.rs:486-496`):
`serde_json::from_str::<Request>` succeeds only on a valid JSON value of
the `Request` shape; every other non-whitespace line gets the parse-error
response. -/
def handleLine (getImpl : String → Option Json) (idx : Index)
    (l : InputLine) : Option Response :=
  match l with
  | .valid j =>
      match decodeRequest j with
      | some req => dispatch getImpl idx req
      | none => some parseErrorResponse
  | .invalid trimEmpty =>
      if trimEmpty then none else some parseErrorResponse

/-- The change notification of the notify branch (`main.rs:289-298`). -/
def updatedNotification : Notification :=
  { jsonrpc := "2.0",
    method := "notifications/resources/updated",
    params := .obj [("uri", .str ("skeleton://project/global"))] }

-- === EVENT TRACE OF `main` (`main.rs:265-503`) ===

/-- A message written to stdout: a response line or a notification
line. -/
inductive OutMsg where
  | respMsg (r : Response)
  | notifMsg (n : Notification)

/-- Observable events of a run of `main`: an index insertion performed by
the sweep, a read of one stdin line, or a write to stdout. -/
inductive Ev where
  | insertEv (path : String)
  | readLineEv
  | outEv (m : OutMsg)

/-- Whether an event is a stdout write or a stdin read of the server
loop. -/
def Ev.isServerEv : Ev → Bool
  | .insertEv _ => false
  | .readLineEv => true
  | .outEv _ => true

/-- The events of `perform_initial_sweep`: one insertion per successfully
skeletonized `.ts`/`.tsx` file, and no stdout traffic at all. -/
def sweepTrace (parse : String → Option ModuleAst) (files : List String) : List Ev :=
  files.filterMap (fun p =>
    if isTsPath p ∧ (skeletonize_file parse p).isSome then some (Ev.insertEv p) else none)

/-- One arrival at the `tokio::select!` of the server loop
(`main.rs:288-299`): a change tick or a line of stdin. -/
inductive ServerInput where
  | tick
  | line (l : InputLine)

/-- The events of one server-loop iteration: a tick emits the update
notification (`main.rs:289-298`); a stdin line is read and, when
`handleLine` produces a response, that response is written. -/
def serverStep (getImpl : String → Option Json) (idx : Index)
    (inp : ServerInput) : List Ev :=
  match inp with
  | .tick => [.outEv (.notifMsg updatedNotification)]
  | .line l =>
      .readLineEv ::
        (match handleLine getImpl idx l with
         | some r => [.outEv (.respMsg r)]
         | none => [])

/-- The events of the server loop over a list of select-arrivals (the
index is the one produced by the sweep; watcher writes do not add trace
events of their own in this model). -/
def serverTrace (getImpl : String → Option Json) (idx : Index)
    (inputs : List ServerInput) : List Ev :=
  inputs.foldr (fun inp acc => serverStep getImpl idx inp ++ acc) []

/-- The full event trace of `main` (`main.rs:265-300`): the sweep runs
first (`main.rs:272`), then the select loop serves ticks and stdin
lines. -/
def mainTrace (parse : String → Option ModuleAst) (getImpl : String → Option Json)
    (files : List String) (inputs : List ServerInput) : List Ev :=
  sweepTrace parse files ++
    serverTrace getImpl (perform_initial_sweep parse files []) inputs

-- === LEMMAS: bodies are empty after the Skeletonizer pass ===

mutual

theorem exprBE_skel : ∀ e : Expr, exprBE (skelExpr e) = true
  | .lit _ => by simp [skelExpr, exprBE]
  | .ident _ => by simp [skelExpr, exprBE]
  | .arrow _ _ => by simp [skelExpr, exprBE]
  | .fnExpr _ f => by simp [skelExpr, exprBE, fnBE_skel f]
  | .call c args => by simp [skelExpr, exprBE, exprBE_skel c, exprListBE_skel args]
  | .object fs => by simp [skelExpr, exprBE, objFieldsBE_skel fs]
  | .array es => by simp [skelExpr, exprBE, exprListBE_skel es]

theorem exprListBE_skel : ∀ es : List Expr, exprListBE (skelExprList es) = true
  | [] => by simp [skelExprList, exprListBE]
  | e :: es => by simp [skelExprList, exprListBE, exprBE_skel e, exprListBE_skel es]

theorem objFieldsBE_skel : ∀ fs : List ObjField, objFieldsBE (skelObjFields fs) = true
  | [] => by simp [skelObjFields, objFieldsBE]
  | .kv _ v :: fs => by simp [skelObjFields, objFieldsBE, exprBE_skel v, objFieldsBE_skel fs]

theorem fnBE_skel : ∀ f : Fn, fnBE (skelFn f) = true
  | .mk _ none => by simp [skelFn, fnBE]
  | .mk _ (some _) => by simp [skelFn, fnBE]

theorem stmtBE_skel : ∀ s : Stmt, stmtBE (skelStmt s) = true
  | .decl d => by simp [skelStmt, stmtBE, declBE_skel d]
  | .exprStmt e => by simp [skelStmt, stmtBE, exprBE_skel e]
  | .ret e => by simp [skelStmt, stmtBE, optExprBE_skel e]
  | .block ss => by simp [skelStmt, stmtBE, stmtListBE_skel ss]

theorem optExprBE_skel : ∀ e : Option Expr, optExprBE (skelOptExpr e) = true
  | none => by simp [skelOptExpr, optExprBE]
  | some e => by simp [skelOptExpr, optExprBE, exprBE_skel e]

theorem stmtListBE_skel : ∀ ss : List Stmt, stmtListBE (skelStmtList ss) = true
  | [] => by simp [skelStmtList, stmtListBE]
  | s :: ss => by simp [skelStmtList, stmtListBE, stmtBE_skel s, stmtListBE_skel ss]

theorem declBE_skel : ∀ d : Decl, declBE (skelDecl d) = true
  | .classDecl _ ms => by simp [skelDecl, declBE, membersBE_skel ms]
  | .fnDecl _ f => by simp [skelDecl, declBE, fnBE_skel f]
  | .varDecl _ ds => by simp [skelDecl, declBE, varDeclsBE_skel ds]
  | .tsInterface _ _ => by simp [skelDecl, declBE]
  | .tsTypeAlias _ _ => by simp [skelDecl, declBE]
  | .tsEnum _ _ => by simp [skelDecl, declBE]
  | .tsModule _ body => by simp [skelDecl, declBE, itemListBE_skel body]
  | .usingDecl ds => by simp [skelDecl, declBE, varDeclsBE_skel ds]

theorem varDeclsBE_skel : ∀ ds : List VarDeclarator, varDeclsBE (skelVarDecls ds) = true
  | [] => by simp [skelVarDecls, varDeclsBE]
  | .mk _ i :: ds => by simp [skelVarDecls, varDeclsBE, optExprBE_skel i, varDeclsBE_skel ds]

theorem membersBE_skel : ∀ ms : List ClassMember, membersBE (skelMembers ms) = true
  | [] => by simp [skelMembers, membersBE]
  | m :: ms => by simp [skelMembers, membersBE, memberBE_skel m, membersBE_skel ms]

theorem memberBE_skel : ∀ m : ClassMember, memberBE (skelMember m) = true
  | .method _ f => by simp [skelMember, memberBE, fnBE_skel f]
  | .ctor _ body => by simp [skelMember, memberBE, optStmtsBE_skel body]
  | .prop _ v => by simp [skelMember, memberBE, optExprBE_skel v]

theorem optStmtsBE_skel : ∀ body : Option (List Stmt), optStmtsBE (skelOptStmts body) = true
  | none => by simp [skelOptStmts, optStmtsBE]
  | some ss => by simp [skelOptStmts, optStmtsBE, stmtListBE_skel ss]

theorem itemListBE_skel : ∀ items : List ModuleItem, itemListBE (skelModuleItems items) = true
  | [] => by simp [skelModuleItems, itemListBE]
  | i :: is => by
      by_cases h : isStyleImport i = true
      · simp [skelModuleItems, h, itemListBE_skel is]
      · simp [skelModuleItems, h, itemListBE, itemBE_skel i, itemListBE_skel is]

theorem itemBE_skel : ∀ i : ModuleItem, itemBE (skelModuleItem i) = true
  | .moduleDecl d => by simp [skelModuleItem, itemBE, moduleDeclBE_skel d]
  | .stmt s => by simp [skelModuleItem, itemBE, stmtBE_skel s]

theorem moduleDeclBE_skel : ∀ d : ModuleDecl, moduleDeclBE (skelModuleDecl d) = true
  | .importDecl _ _ => by simp [skelModuleDecl, moduleDeclBE]
  | .exportDecl d => by simp [skelModuleDecl, moduleDeclBE, declBE_skel d]
  | .exportNamed _ _ => by simp [skelModuleDecl, moduleDeclBE]
  | .exportDefaultDecl d => by simp [skelModuleDecl, moduleDeclBE, defaultDeclBE_skel d]
  | .exportDefaultExpr e => by simp [skelModuleDecl, moduleDeclBE, exprBE_skel e]
  | .exportAll _ => by simp [skelModuleDecl, moduleDeclBE]
  | .tsImportEquals _ _ => by simp [skelModuleDecl, moduleDeclBE]
  | .tsExportAssignment e => by simp [skelModuleDecl, moduleDeclBE, exprBE_skel e]
  | .tsNamespaceExport _ => by simp [skelModuleDecl, moduleDeclBE]

theorem defaultDeclBE_skel : ∀ d : DefaultDecl, defaultDeclBE (skelDefaultDecl d) = true
  | .fnD _ f => by simp [skelDefaultDecl, defaultDeclBE, fnBE_skel f]
  | .classD _ ms => by simp [skelDefaultDecl, defaultDeclBE, membersBE_skel ms]
  | .interfaceD _ _ => by simp [skelDefaultDecl, defaultDeclBE]

end

-- === LEMMAS: the module-items pass as filter-then-map ===

/-- The fused recursion of `skelModuleItems` equals `retain` followed by
the child visit, exactly as `visit_mut_module_items` performs it
(`main.rs:86-97`). -/
theorem skelModuleItems_eq_filter_map (items : List ModuleItem) :
    skelModuleItems items = (items.filter (fun i => !isStyleImport i)).map skelModuleItem := by
  induction items with
  | nil => simp [skelModuleItems]
  | cons i is ih =>
      by_cases h : isStyleImport i = true
      · simp [skelModuleItems, h, ih]
      · simp [skelModuleItems, h, ih, List.filter_cons]

/-- `skelModuleItem` never changes an import declaration, so the style
test is stable under the child visit. -/
theorem isStyleImport_skelModuleItem (i : ModuleItem) :
    isStyleImport (skelModuleItem i) = isStyleImport i := by
  match i with
  | .moduleDecl d =>
      match d with
      | .importDecl sp src => simp [skelModuleItem, skelModuleDecl]
      | .exportDecl d => simp [skelModuleItem, skelModuleDecl, isStyleImport]
      | .exportNamed _ _ => simp [skelModuleItem, skelModuleDecl, isStyleImport]
      | .exportDefaultDecl _ => simp [skelModuleItem, skelModuleDecl, isStyleImport]
      | .exportDefaultExpr _ => simp [skelModuleItem, skelModuleDecl, isStyleImport]
      | .exportAll _ => simp [skelModuleItem, skelModuleDecl, isStyleImport]
      | .tsImportEquals _ _ => simp [skelModuleItem, skelModuleDecl, isStyleImport]
      | .tsExportAssignment _ => simp [skelModuleItem, skelModuleDecl, isStyleImport]
      | .tsNamespaceExport _ => simp [skelModuleItem, skelModuleDecl, isStyleImport]
  | .stmt s => simp [skelModuleItem, isStyleImport]

-- === LEMMAS: the extraction loop as ordered projections ===

/-- Accumulator form of the `extract_ir` loop: every field grows by the
printed items routed to it, in source order. -/
theorem extract_foldl (items : List ModuleItem) :
    ∀ acc : FileSkeleton,
      items.foldl extractStep acc =
        { imports := acc.imports ++ fieldStrings .imports items,
          exports := acc.exports ++ fieldStrings .exports items,
          functions := acc.functions ++ fieldStrings .functions items,
          interfaces := acc.interfaces ++ fieldStrings .interfaces items,
          classes := acc.classes ++ fieldStrings .classes items,
          «variables» := acc.«variables» ++ fieldStrings .variables items } := by
  induction items with
  | nil => intro acc; simp [fieldStrings]
  | cons i is ih =>
      intro acc
      rw [List.foldl_cons, ih]
      rcases i with d | s
      · rcases d <;>
          simp [extractStep, fieldStrings, route, List.filterMap_cons, printModuleItem]
      · rcases s with dd | e | e | ss
        · rcases dd <;>
            simp [extractStep, fieldStrings, route, List.filterMap_cons, printModuleItem,
              printStmt]
        all_goals
          simp [extractStep, fieldStrings, route, List.filterMap_cons, printModuleItem]

/-- `extract_ir` field-by-field: ordered projections of the routed
items. -/
theorem extract_ir_field (m : ModuleAst) (f : SkField) :
    (extract_ir m).field f = fieldStrings f m.body := by
  have hd : (default : FileSkeleton) = ⟨[], [], [], [], [], []⟩ := rfl
  have h := extract_foldl m.body ⟨[], [], [], [], [], []⟩
  cases f <;>
    simp [extract_ir, hd, h, FileSkeleton.field]

/-- `route` sends an item nowhere exactly when it is a bare statement or
a `using` declaration. -/
theorem route_none_iff (i : ModuleItem) :
    route i = none ↔ isBareOrUsing i = true := by
  rcases i with d | s
  · rcases d <;> simp [route, isBareOrUsing]
  · rcases s with dd | e | e | ss
    · rcases dd <;> simp [route, isBareOrUsing]
    all_goals simp [route, isBareOrUsing]

-- === LEMMAS: the Skeletonizer pass is idempotent ===

mutual

theorem skelExpr_idem : ∀ e : Expr, skelExpr (skelExpr e) = skelExpr e
  | .lit _ => by simp [skelExpr]
  | .ident _ => by simp [skelExpr]
  | .arrow _ _ => by simp [skelExpr]
  | .fnExpr _ f => by simp [skelExpr, skelFn_idem f]
  | .call c args => by simp [skelExpr, skelExpr_idem c, skelExprList_idem args]
  | .object fs => by simp [skelExpr, skelObjFields_idem fs]
  | .array es => by simp [skelExpr, skelExprList_idem es]

theorem skelExprList_idem : ∀ es : List Expr, skelExprList (skelExprList es) = skelExprList es
  | [] => by simp [skelExprList]
  | e :: es => by simp [skelExprList, skelExpr_idem e, skelExprList_idem es]

theorem skelObjFields_idem :
    ∀ fs : List ObjField, skelObjFields (skelObjFields fs) = skelObjFields fs
  | [] => by simp [skelObjFields]
  | .kv _ v :: fs => by simp [skelObjFields, skelExpr_idem v, skelObjFields_idem fs]

theorem skelFn_idem : ∀ f : Fn, skelFn (skelFn f) = skelFn f
  | .mk _ none => by simp [skelFn]
  | .mk _ (some _) => by simp [skelFn]

theorem skelStmt_idem : ∀ s : Stmt, skelStmt (skelStmt s) = skelStmt s
  | .decl d => by simp [skelStmt, skelDecl_idem d]
  | .exprStmt e => by simp [skelStmt, skelExpr_idem e]
  | .ret e => by simp [skelStmt, skelOptExpr_idem e]
  | .block ss => by simp [skelStmt, skelStmtList_idem ss]

theorem skelOptExpr_idem : ∀ e : Option Expr, skelOptExpr (skelOptExpr e) = skelOptExpr e
  | none => by simp [skelOptExpr]
  | some e => by simp [skelOptExpr, skelExpr_idem e]

theorem skelStmtList_idem : ∀ ss : List Stmt, skelStmtList (skelStmtList ss) = skelStmtList ss
  | [] => by simp [skelStmtList]
  | s :: ss => by simp [skelStmtList, skelStmt_idem s, skelStmtList_idem ss]

theorem skelDecl_idem : ∀ d : Decl, skelDecl (skelDecl d) = skelDecl d
  | .classDecl _ ms => by simp [skelDecl, skelMembers_idem ms]
  | .fnDecl _ f => by simp [skelDecl, skelFn_idem f]
  | .varDecl _ ds => by simp [skelDecl, skelVarDecls_idem ds]
  | .tsInterface _ _ => by simp [skelDecl]
  | .tsTypeAlias _ _ => by simp [skelDecl]
  | .tsEnum _ _ => by simp [skelDecl]
  | .tsModule _ body => by simp [skelDecl, skelModuleItems_idem body]
  | .usingDecl ds => by simp [skelDecl, skelVarDecls_idem ds]

theorem skelVarDecls_idem :
    ∀ ds : List VarDeclarator, skelVarDecls (skelVarDecls ds) = skelVarDecls ds
  | [] => by simp [skelVarDecls]
  | .mk _ i :: ds => by simp [skelVarDecls, skelOptExpr_idem i, skelVarDecls_idem ds]

theorem skelMembers_idem :
    ∀ ms : List ClassMember, skelMembers (skelMembers ms) = skelMembers ms
  | [] => by simp [skelMembers]
  | m :: ms => by simp [skelMembers, skelMember_idem m, skelMembers_idem ms]

theorem skelMember_idem : ∀ m : ClassMember, skelMember (skelMember m) = skelMember m
  | .method _ f => by simp [skelMember, skelFn_idem f]
  | .ctor _ body => by simp [skelMember, skelOptStmts_idem body]
  | .prop _ v => by simp [skelMember, skelOptExpr_idem v]

theorem skelOptStmts_idem :
    ∀ body : Option (List Stmt), skelOptStmts (skelOptStmts body) = skelOptStmts body
  | none => by simp [skelOptStmts]
  | some ss => by simp [skelOptStmts, skelStmtList_idem ss]

theorem skelModuleItems_idem :
    ∀ items : List ModuleItem, skelModuleItems (skelModuleItems items) = skelModuleItems items
  | [] => by simp [skelModuleItems]
  | i :: is => by
      by_cases h : isStyleImport i = true
      · simp [skelModuleItems, h, skelModuleItems_idem is]
      · have h2 : isStyleImport (skelModuleItem i) = false := by
          rw [isStyleImport_skelModuleItem]
          exact eq_false_of_ne_true h
        simp [skelModuleItems, h, h2, skelModuleItem_idem i, skelModuleItems_idem is]

theorem skelModuleItem_idem : ∀ i : ModuleItem, skelModuleItem (skelModuleItem i) = skelModuleItem i
  | .moduleDecl d => by simp [skelModuleItem, skelModuleDecl_idem d]
  | .stmt s => by simp [skelModuleItem, skelStmt_idem s]

theorem skelModuleDecl_idem : ∀ d : ModuleDecl, skelModuleDecl (skelModuleDecl d) = skelModuleDecl d
  | .importDecl _ _ => by simp [skelModuleDecl]
  | .exportDecl d => by simp [skelModuleDecl, skelDecl_idem d]
  | .exportNamed _ _ => by simp [skelModuleDecl]
  | .exportDefaultDecl d => by simp [skelModuleDecl, skelDefaultDecl_idem d]
  | .exportDefaultExpr e => by simp [skelModuleDecl, skelExpr_idem e]
  | .exportAll _ => by simp [skelModuleDecl]
  | .tsImportEquals _ _ => by simp [skelModuleDecl]
  | .tsExportAssignment e => by simp [skelModuleDecl, skelExpr_idem e]
  | .tsNamespaceExport _ => by simp [skelModuleDecl]

theorem skelDefaultDecl_idem : ∀ d : DefaultDecl, skelDefaultDecl (skelDefaultDecl d) = skelDefaultDecl d
  | .fnD _ f => by simp [skelDefaultDecl, skelFn_idem f]
  | .classD _ ms => by simp [skelDefaultDecl, skelMembers_idem ms]
  | .interfaceD _ _ => by simp [skelDefaultDecl]

end

/-- List form of the bodies-empty predicate. -/
theorem itemListBE_iff (l : List ModuleItem) :
    itemListBE l = true ↔ ∀ i ∈ l, itemBE i = true := by
  induction l with
  | nil => simp [itemListBE]
  | cons i is ih => simp [itemListBE, ih]

/-- Style imports never survive the pass. -/
theorem no_style_import_in_skel (m : ModuleAst) :
    ∀ i ∈ (skelModule m).body, isStyleImport i = false := by
  intro i hi
  rw [skelModule, skelModuleItems_eq_filter_map] at hi
  simp only [List.mem_map] at hi
  obtain ⟨j, hj, rfl⟩ := hi
  rw [isStyleImport_skelModuleItem]
  exact (List.mem_filter.mp hj).2 |> (by simp : (!isStyleImport j) = true → isStyleImport j = false)

/-- C1: after the Skeletonizer mutation pass, every string in every field
of the extracted skeleton is the print of a top-level item of the mutated
module in which every function declaration, function expression, class
method and arrow expression has an empty block body. -/
theorem C1_skeleton_fields_bodies_empty (m : ModuleAst) (f : SkField) (s : String)
    (hs : s ∈ (extract_ir (skelModule m)).field f) :
    ∃ i ∈ (skelModule m).body, s = printModuleItem i ∧ itemBE i = true := by
  rw [extract_ir_field] at hs
  unfold fieldStrings at hs
  simp only [List.mem_filterMap] at hs
  obtain ⟨i, hi, hif⟩ := hs
  refine ⟨i, hi, ?_, ?_⟩
  · by_cases hr : route i = some f
    · simp [hr] at hif
      exact hif.symm
    · simp [hr] at hif
  · have hbe : itemListBE (skelModule m).body = true := by
      rw [skelModule]
      exact itemListBE_skel m.body
    exact (itemListBE_iff _).mp hbe i hi

/-- Concrete instance for `C1_skeleton_fields_bodies_empty`: a one-item
module whose function has a non-empty body. -/
def c1Module : ModuleAst :=
  ⟨[.stmt (.decl (.fnDecl ("f") (.mk ["x"] (some [.ret (some (.ident ("x")))]))))]⟩

theorem C1_witness :
    (printDecl (.fnDecl ("f") (.mk ["x"] (some [])))
        ∈ (extract_ir (skelModule c1Module)).field .functions)
    ∧ ∃ i ∈ (skelModule c1Module).body,
        printDecl (.fnDecl ("f") (.mk ["x"] (some []))) = printModuleItem i ∧ itemBE i = true :=
  ⟨List.mem_singleton.mpr rfl,
   C1_skeleton_fields_bodies_empty c1Module .functions _ (List.mem_singleton.mpr rfl)⟩

/-- C2: the pass removes exactly the top-level imports whose quoted raw
source string contains `.css`, `.scss` or `.svg`; the surviving AST (from
which every field is extracted) is the child-visited image of the
retained items, it contains no style import, and the specifier
`my.css-loader` is filtered. -/
theorem C2_import_filter (m : ModuleAst) :
    (skelModule m).body = (m.body.filter (fun i => !isStyleImport i)).map skelModuleItem
    ∧ (∀ i ∈ (skelModule m).body, isStyleImport i = false)
    ∧ isStyleImport (.moduleDecl (.importDecl [] ("my.css-loader"))) = true := by
  refine ⟨?_, no_style_import_in_skel m, by decide⟩
  rw [skelModule, skelModuleItems_eq_filter_map]

/-- C3: extraction routes every top-level item by `route` (hence into at
most one field), each field is the in-source-order list of the printed
items routed to it, and an item is routed nowhere exactly when it is a
bare statement or a `using` declaration. -/
theorem C3_extraction_routing (m : ModuleAst) :
    (∀ f : SkField, (extract_ir m).field f = fieldStrings f m.body)
    ∧ (∀ i : ModuleItem, route i = none ↔ isBareOrUsing i = true) :=
  ⟨fun f => extract_ir_field m f, fun i => route_none_iff i⟩

/-- C9: the Skeletonizer mutation pass is idempotent on modules, so
extraction after a second pass yields the same skeleton. -/
theorem C9_skeletonize_idempotent (m : ModuleAst) :
    skelModule (skelModule m) = skelModule m
    ∧ extract_ir (skelModule (skelModule m)) = extract_ir (skelModule m) := by
  have h : skelModule (skelModule m) = skelModule m := by
    show (⟨skelModuleItems (skelModuleItems m.body)⟩ : ModuleAst) = ⟨skelModuleItems m.body⟩
    rw [skelModuleItems_idem]
  exact ⟨h, by rw [h]⟩

-- === LEMMAS: sweep and watcher ===

/-- A failed skeletonize leaves any index untouched in the sweep. -/
theorem sweepStep_fail (parse : String → Option ModuleAst) (p : String)
    (hfail : skeletonize_file parse p = none) :
    ∀ idx : Index, sweepStep parse idx p = idx := by
  intro idx
  unfold sweepStep
  rw [hfail]
  split <;> rfl

/-- The change flag after a batch: true exactly when the starting flag was
set or some path in the batch is a `.ts`/`.tsx` file that skeletonizes
successfully. -/
theorem watchFold_snd (parse : String → Option ModuleAst) :
    ∀ (paths : List String) (st : Index × Bool),
      (paths.foldl (watchPathStep parse) st).2
        = (st.2 || paths.any (fun p => isTsPath p && (skeletonize_file parse p).isSome)) := by
  intro paths
  induction paths with
  | nil => intro st; simp
  | cons p ps ih =>
      intro st
      rw [List.foldl_cons, ih]
      unfold watchPathStep
      by_cases hts : isTsPath p = true
      · cases hsk : skeletonize_file parse p with
        | none => simp [hts, hsk]
        | some ir => simp [hts, hsk]
      · simp [hts, Bool.and_comm]

/-- C8: for every file handled by the sweep or the watcher, the index is
written only on skeletonize success (and then wholesale, via
`insertIndex`); on failure the index is completely unchanged and
processing continues with the remaining files. -/
theorem C8_index_written_only_on_success (parse : String → Option ModuleAst)
    (idx : Index) (p : String) :
    (skeletonize_file parse p = none →
        sweepStep parse idx p = idx
        ∧ (∀ flag, watchPathStep parse (idx, flag) p = (idx, flag))
        ∧ (∀ fs1 fs2 : List String,
            perform_initial_sweep parse (fs1 ++ p :: fs2) idx
              = perform_initial_sweep parse (fs1 ++ fs2) idx))
    ∧ (∀ ir, skeletonize_file parse p = some ir → isTsPath p = true →
        sweepStep parse idx p = insertIndex idx p ir
        ∧ (∀ flag, watchPathStep parse (idx, flag) p = (insertIndex idx p ir, true))) := by
  constructor
  · intro hfail
    refine ⟨sweepStep_fail parse p hfail idx, ?_, ?_⟩
    · intro flag
      unfold watchPathStep
      rw [hfail]
      split <;> rfl
    · intro fs1 fs2
      unfold perform_initial_sweep
      rw [List.foldl_append, List.foldl_append, List.foldl_cons,
        sweepStep_fail parse p hfail]
  · intro ir hsucc hts
    constructor
    · unfold sweepStep
      rw [hsucc, hts]
      simp
    · intro flag
      unfold watchPathStep
      rw [hsucc, hts]
      simp

/-- C8 witness: a file whose parse fails, against the empty index. -/
theorem C8_witness :
    (skeletonize_file (fun _ => none) ("a.ts") = none)
    ∧ sweepStep (fun _ => none) ([] : Index) ("a.ts") = ([] : Index)
    ∧ watchPathStep (fun _ => none) (([] : Index), false) ("a.ts") = (([] : Index), false)
    ∧ perform_initial_sweep (fun _ => none) (["a.ts"]) ([] : Index)
        = perform_initial_sweep (fun _ => none) ([]) ([] : Index) :=
  have h := (C8_index_written_only_on_success (fun _ => none) ([] : Index) ("a.ts")).1 rfl
  ⟨rfl, h.1, h.2.1 false, h.2.2 [] []⟩

-- === CLAIMS ABOUT THE SERVER LOOP ===

/-- C10: a stdin line that is valid JSON but does not decode into the
`Request` shape is answered exactly like a syntactically invalid line:
the parse-error response with null id, code -32700, message
"Parse error". -/
theorem C10_bad_shape_is_parse_error (getImpl : String → Option Json) (idx : Index)
    (j : Json) (h : decodeRequest j = none) :
    handleLine getImpl idx (.valid j) = some parseErrorResponse
    ∧ handleLine getImpl idx (.valid j) = handleLine getImpl idx (.invalid false) := by
  constructor <;> simp [handleLine, h]

/-- C10 witness: a JSON object with `jsonrpc` but no `method` field. -/
theorem C10_witness :
    (decodeRequest (.obj [("jsonrpc", .str ("2.0")), ("id", .num 1)]) = none)
    ∧ handleLine (fun _ => none) ([] : Index)
        (.valid (.obj [("jsonrpc", .str ("2.0")), ("id", .num 1)])) = some parseErrorResponse
    ∧ handleLine (fun _ => none) ([] : Index)
          (.valid (.obj [("jsonrpc", .str ("2.0")), ("id", .num 1)]))
        = handleLine (fun _ => none) ([] : Index) (.invalid false) :=
  ⟨rfl,
   (C10_bad_shape_is_parse_error (fun _ => none) ([] : Index)
      (.obj [("jsonrpc", .str ("2.0")), ("id", .num 1)]) rfl).1,
   (C10_bad_shape_is_parse_error (fun _ => none) ([] : Index)
      (.obj [("jsonrpc", .str ("2.0")), ("id", .num 1)]) rfl).2⟩

-- === LEMMAS: index lookups after insert ===

/-- Head step of `lookupIndex` when the head key misses. -/
theorem lookupIndex_cons_of_neg (kv : String × FileSkeleton) (tl : Index)
    (k' : String) (h : ¬kv.1 = k') :
    lookupIndex (kv :: tl) k' = lookupIndex tl k' := by
  simp [lookupIndex, h]

/-- Head step of `lookupIndex` when the head key matches. -/
theorem lookupIndex_cons_of_pos (kv : String × FileSkeleton) (tl : Index)
    (k' : String) (h : kv.1 = k') :
    lookupIndex (kv :: tl) k' = some kv.2 := by
  simp [lookupIndex, h]

/-- Replacing the value under key `k` makes `k` look up the new value,
provided some entry with key `k` exists. -/
theorem lookup_map_replace (k : String) (v : FileSkeleton) :
    ∀ idx : Index, (idx.find? (fun kv => kv.1 = k)).isSome = true →
      lookupIndex (idx.map (fun kv => if kv.1 = k then (k, v) else kv)) k = some v := by
  intro idx
  induction idx with
  | nil => simp
  | cons kv tl ih =>
      by_cases h : kv.1 = k
      · intro _
        rw [List.map_cons, if_pos h, lookupIndex_cons_of_pos _ _ _ (show (k, v).1 = k from rfl)]
      · intro hmem
        rw [List.map_cons, if_neg h, lookupIndex_cons_of_neg _ _ _ h]
        apply ih
        simpa [List.find?_cons_of_neg, h] using hmem

/-- Appending a fresh `(k, v)` entry makes `k` look up `v` when no entry
with key `k` existed. -/
theorem lookup_append_single (k : String) (v : FileSkeleton) (idx : Index)
    (h : idx.find? (fun kv => kv.1 = k) = none) :
    lookupIndex (idx ++ [(k, v)]) k = some v := by
  simp [lookupIndex, List.find?_append, h]

/-- `insertIndex` makes its key look up its value. -/
theorem lookupIndex_insert_self (idx : Index) (k : String) (v : FileSkeleton) :
    lookupIndex (insertIndex idx k v) k = some v := by
  unfold insertIndex
  by_cases hmem : (idx.find? (fun kv => kv.1 = k)).isSome = true
  · rw [if_pos hmem]
    exact lookup_map_replace k v idx hmem
  · rw [if_neg hmem]
    apply lookup_append_single
    cases hfind : idx.find? (fun kv => kv.1 = k) with
    | none => rfl
    | some x => exact absurd (by simp [hfind]) hmem

/-- Replacing the value under key `k` does not change lookups of other
keys. -/
theorem lookup_map_replace_other (k : String) (v : FileSkeleton) (k' : String)
    (h : ¬k' = k) :
    ∀ idx : Index,
      lookupIndex (idx.map (fun kv => if kv.1 = k then (k, v) else kv)) k'
        = lookupIndex idx k' := by
  intro idx
  induction idx with
  | nil => simp
  | cons kv tl ih =>
      by_cases hk : kv.1 = k
      · rw [List.map_cons, if_pos hk,
          lookupIndex_cons_of_neg _ _ _ (show ¬(k, v).1 = k' from fun hh => h hh.symm),
          lookupIndex_cons_of_neg _ _ _
            (show ¬kv.1 = k' from by rw [hk]; exact fun hh => h hh.symm)]
        exact ih
      · by_cases hk' : kv.1 = k'
        · rw [List.map_cons, if_neg hk, lookupIndex_cons_of_pos _ _ _ hk',
            lookupIndex_cons_of_pos _ _ _ hk']
        · rw [List.map_cons, if_neg hk, lookupIndex_cons_of_neg _ _ _ hk',
            lookupIndex_cons_of_neg _ _ _ hk']
          exact ih

/-- Appending a `(k, v)` entry does not change lookups of other keys. -/
theorem lookup_append_single_other (k : String) (v : FileSkeleton) (k' : String)
    (h : ¬k' = k) (idx : Index) :
    lookupIndex (idx ++ [(k, v)]) k' = lookupIndex idx k' := by
  have hne : ¬k = k' := fun hh => h hh.symm
  cases hfind : idx.find? (fun kv => kv.1 = k') with
  | none => simp [lookupIndex, List.find?_append, hfind, hne]
  | some x => simp [lookupIndex, List.find?_append, hfind]

/-- `insertIndex` leaves every other key lookup unchanged. -/
theorem lookupIndex_insert_other (idx : Index) (k : String) (v : FileSkeleton)
    (k' : String) (h : ¬k' = k) :
    lookupIndex (insertIndex idx k v) k' = lookupIndex idx k' := by
  unfold insertIndex
  split
  · exact lookup_map_replace_other k v k' h idx
  · exact lookup_append_single_other k v k' h idx

/-- The index component of the watcher's per-event fold does not depend
on the `changed` flag: it is the per-path insert-on-success fold of
`main.rs:234-244`. -/
theorem watchFold_fst (parse : String → Option ModuleAst) :
    ∀ (paths : List String) (st : Index × Bool),
      (paths.foldl (watchPathStep parse) st).1
        = paths.foldl
            (fun j p =>
              if isTsPath p then
                match skeletonize_file parse p with
                | some ir => insertIndex j p ir
                | none => j
              else j)
            st.1 := by
  intro paths
  induction paths with
  | nil => intro st; simp
  | cons p ps ih =>
      intro st
      rw [List.foldl_cons, List.foldl_cons, ih]
      unfold watchPathStep
      by_cases hts : isTsPath p = true
      · cases hsk : skeletonize_file parse p <;> simp [hts, hsk]
      · simp [hts]

/-- Once a path with a fixed skeletonize result is present in the index,
the rest of the batch never changes its entry to anything else. -/
theorem watchFold_lookup_preserved (parse : String → Option ModuleAst)
    (p : String) (ir : FileSkeleton) (hsk : skeletonize_file parse p = some ir) :
    ∀ (paths : List String) (st : Index × Bool),
      lookupIndex st.1 p = some ir →
      lookupIndex ((paths.foldl (watchPathStep parse) st).1) p = some ir := by
  intro paths
  induction paths with
  | nil => intro st h; simpa using h
  | cons q qs ih =>
      intro st h
      rw [List.foldl_cons]
      apply ih
      unfold watchPathStep
      by_cases hts : isTsPath q = true
      · cases hsq : skeletonize_file parse q with
        | none => simpa [hts, hsq] using h
        | some ir' =>
            simp only [hts, hsq, if_pos]
            by_cases hpq : p = q
            · subst hpq
              rw [hsk] at hsq
              cases hsq
              exact lookupIndex_insert_self st.1 p ir
            · rw [lookupIndex_insert_other st.1 q ir' p hpq]
              exact h
      · simpa [hts] using h

/-- Every affected `.ts`/`.tsx` path that skeletonizes successfully ends
the batch with its freshly extracted skeleton in the index. -/
theorem watchFold_inserts (parse : String → Option ModuleAst) :
    ∀ (paths : List String) (st : Index × Bool) (p : String) (ir : FileSkeleton),
      p ∈ paths → isTsPath p = true → skeletonize_file parse p = some ir →
      lookupIndex ((paths.foldl (watchPathStep parse) st).1) p = some ir := by
  intro paths
  induction paths with
  | nil => intro st p ir hmem; cases hmem
  | cons q qs ih =>
      intro st p ir hmem hts hsk
      rw [List.foldl_cons]
      rcases List.mem_cons.mp hmem with hpq | hmem'
      · subst hpq
        by_cases hqs : p ∈ qs
        · exact ih _ p ir hqs hts hsk
        · apply watchFold_lookup_preserved parse p ir hsk
          unfold watchPathStep
          rw [if_pos hts, hsk]
          exact lookupIndex_insert_self st.1 p ir
      · exact ih _ p ir hmem' hts hsk

/-- C6: a Modify event reskeletonizes and inserts each affected
`.ts`/`.tsx` path — its index is the per-path insert-on-success fold, and
every affected `.ts`/`.tsx` path that skeletonizes successfully ends the
batch with its fresh skeleton in the index — it sends its single change
tick exactly when some such path succeeded, and each received tick makes
the server emit one `notifications/resources/updated` notification whose
params are exactly the global uri object. -/
theorem C6_modify_tick_and_notification (parse : String → Option ModuleAst)
    (getImpl : String → Option Json) (idx : Index) (paths : List String) :
    ((watchEvent parse idx ⟨.modify, paths⟩).1
        = paths.foldl
            (fun j p =>
              if isTsPath p then
                match skeletonize_file parse p with
                | some ir => insertIndex j p ir
                | none => j
              else j)
            idx)
    ∧ (∀ p ∈ paths, ∀ ir : FileSkeleton,
        isTsPath p = true → skeletonize_file parse p = some ir →
        lookupIndex (watchEvent parse idx ⟨.modify, paths⟩).1 p = some ir)
    ∧ ((watchEvent parse idx ⟨.modify, paths⟩).2 = true ↔
        ∃ p ∈ paths, isTsPath p = true ∧ (skeletonize_file parse p).isSome = true)
    ∧ serverStep getImpl idx .tick = [.outEv (.notifMsg updatedNotification)]
    ∧ updatedNotification.method = "notifications/resources/updated"
    ∧ updatedNotification.params = .obj [("uri", .str ("skeleton://project/global"))] := by
  refine ⟨?_, ?_, ?_, rfl, rfl, rfl⟩
  · show (watchBatch parse idx paths).1 = _
    rw [watchBatch, watchFold_fst]
  · intro p hmem ir hts hsk
    show lookupIndex (watchBatch parse idx paths).1 p = some ir
    exact watchFold_inserts parse paths (idx, false) p ir hmem hts hsk
  · show (watchBatch parse idx paths).2 = true ↔ _
    rw [watchBatch, watchFold_snd]
    simp [List.any_eq_true]

/-- Events of the sweep are never stdin reads or stdout writes. -/
theorem sweepTrace_no_server_ev (parse : String → Option ModuleAst) (files : List String) :
    ∀ e ∈ sweepTrace parse files, e.isServerEv = false := by
  intro e he
  unfold sweepTrace at he
  simp only [List.mem_filterMap] at he
  obtain ⟨p, _, hpe⟩ := he
  split at hpe
  · cases hpe
    rfl
  · cases hpe

/-- C5: in the trace of `main`, every stdin read and every stdout write
happens at a position at or past the end of the initial sweep: the sweep
runs to completion before the server loop reads or emits anything. -/
theorem C5_no_output_before_sweep_done (parse : String → Option ModuleAst)
    (getImpl : String → Option Json) (files : List String)
    (inputs : List ServerInput) (i : Nat) (e : Ev)
    (hi : (mainTrace parse getImpl files inputs)[i]? = some e)
    (he : e.isServerEv = true) :
    (sweepTrace parse files).length ≤ i := by
  by_contra hlt
  push_neg at hlt
  rw [mainTrace, List.getElem?_append_left hlt] at hi
  have hmem : e ∈ sweepTrace parse files := List.getElem?_mem hi
  have hf := sweepTrace_no_server_ev parse files e hmem
  rw [he] at hf
  cases hf

/-- C5 witness: an empty project and a single malformed input line; the
response to it is written at position 0, at the boundary of the empty
sweep. -/
theorem C5_witness :
    ((mainTrace (fun _ => none) (fun _ => none) [] [.line (.invalid false)])[1]?
        = some (.outEv (.respMsg parseErrorResponse)))
    ∧ ((Ev.outEv (.respMsg parseErrorResponse)).isServerEv = true)
    ∧ (sweepTrace (fun _ => none) ([] : List String)).length ≤ 1 :=
  ⟨rfl, rfl,
   C5_no_output_before_sweep_done (fun _ => none) (fun _ => none) [] [.line (.invalid false)]
     1 (.outEv (.respMsg parseErrorResponse)) rfl rfl⟩

/-- Modelled from the spec: the §4.5 contract for `resources/read` with a
`uri` parameter — global uri on an empty index is the -32603 "Graph is
empty" error, global uri otherwise returns the serialized full index,
a file uri hit returns the file's skeleton as JSON-in-text, a file uri
miss is -32602 "File not found in graph.", anything else is -32602
"Invalid URI scheme for resource.". -/
def readResourceSpec (idx : Index) (uri : String) : Option Json × Option Json :=
  if uri = "skeleton://project/global" then
    if indexIsEmpty idx then
      (none, some (mkErr (-32603) ("Graph is empty. No files scanned or found.")))
    else
      (some (globalReadResult idx), none)
  else if strStartsWith uri ("skeleton://project/file/") then
    match lookupIndex idx (trim_start_matches uri ("skeleton://project/file/")) with
    | some sk => (some (fileReadResult uri sk), none)
    | none => (none, some (mkErr (-32602) ("File not found in graph.")))
  else
    (none, some (mkErr (-32602) ("Invalid URI scheme for resource.")))

/-- C4: every `resources/read` request with an id and a string `uri`
param is answered by exactly the spec's case table `readResourceSpec`. -/
theorem C4_resources_read (getImpl : String → Option Json) (idx : Index)
    (idv : Json) (params : Json) (uri : String)
    (huri : (params.getKey ("uri")).bind Json.asStr = some uri) :
    dispatch getImpl idx
        { jsonrpc := "2.0", id := some idv, method := "resources/read", params := some params }
      = some { jsonrpc := "2.0", id := some idv,
               result := (readResourceSpec idx uri).1,
               error := (readResourceSpec idx uri).2 } := by
  unfold dispatch dispatchCore readResourceSpec
  simp only [huri]

/-- C4 witness: a per-file read hitting the single entry of a one-file
index. -/
theorem C4_witness :
    (((Json.obj [("uri", .str ("skeleton://project/file/a.ts"))]).getKey ("uri")).bind Json.asStr
        = some ("skeleton://project/file/a.ts"))
    ∧ dispatch (fun _ => none) ([("a.ts", default)] : Index)
        { jsonrpc := "2.0", id := some (.num 1), method := "resources/read",
          params := some (.obj [("uri", .str ("skeleton://project/file/a.ts"))]) }
      = some { jsonrpc := "2.0", id := some (.num 1),
               result := (readResourceSpec ([("a.ts", default)] : Index)
                            ("skeleton://project/file/a.ts")).1,
               error := (readResourceSpec ([("a.ts", default)] : Index)
                            ("skeleton://project/file/a.ts")).2 } :=
  ⟨rfl,
   C4_resources_read (fun _ => none) ([("a.ts", default)] : Index) (.num 1)
     (.obj [("uri", .str ("skeleton://project/file/a.ts"))])
     ("skeleton://project/file/a.ts") rfl⟩

/-- A response carries exactly one of `result` and `error`. -/
def carriesExactlyOne (r : Response) : Bool :=
  (r.result.isSome && !r.error.isSome) || (!r.result.isSome && r.error.isSome)

/-- C7 counterexample: a `resources/read` request with an id but no
`params` is answered with a response that carries neither `result` nor
`error`, refuting "exactly one ... never neither". -/
theorem C7_counterexample :
    dispatch (fun _ => none) ([] : Index)
        { jsonrpc := "2.0", id := some (.num 1), method := "resources/read", params := none }
      = some { jsonrpc := "2.0", id := some (.num 1), result := none, error := none }
    ∧ carriesExactlyOne
        { jsonrpc := "2.0", id := some (.num 1), result := none, error := none } = false :=
  ⟨rfl, rfl⟩

/-- The malformed-params situations in which the dispatch of `main` sets
neither `response_value` nor `error_value`: `resources/read` without
params or without a string `uri`, and `tools/call` without params or —
for the two known tools — without `arguments`. -/
def malformedParams (method : String) (params : Option Json) : Bool :=
  if method = "resources/read" then
    match params with
    | none => true
    | some p => ((p.getKey ("uri")).bind Json.asStr).isNone
  else if method = "tools/call" then
    match params with
    | none => true
    | some p =>
        let name := (((p.getKey ("name")).bind Json.asStr)).getD ""
        if name = "get_implementation" ∨ name = "list_functions" then
          ((p.getKey ("arguments"))).isNone
        else false
  else false

/-- Case analysis of `dispatchCore`: it never sets both optionals, and it
sets neither exactly in the `malformedParams` situations. -/
theorem dispatchCore_cases (getImpl : String → Option Json) (idx : Index)
    (method : String) (params : Option Json) :
    (¬((dispatchCore getImpl idx method params).1.isSome = true
        ∧ (dispatchCore getImpl idx method params).2.isSome = true))
    ∧ ((dispatchCore getImpl idx method params = (none, none))
        ↔ malformedParams method params = true) := by
  unfold dispatchCore malformedParams
  split
  · simp
  · simp
  · -- resources/read
    match params with
    | none => simp
    | some p =>
        cases hu : (p.getKey ("uri")).bind Json.asStr with
        | none => simp [hu]
        | some uri =>
            simp only [hu]
            by_cases hg : uri = "skeleton://project/global"
            · by_cases he : indexIsEmpty idx = true <;> simp [hg, he]
            · by_cases hf : strStartsWith uri ("skeleton://project/file/") = true
              · cases hl : lookupIndex idx (trim_start_matches uri ("skeleton://project/file/")) <;>
                  simp [hg, hf, hl]
              · simp [hg, hf]
  · simp
  · -- tools/call
    match params with
    | none => simp
    | some p =>
        simp only []
        split
        · -- get_implementation
          rename_i hn
          cases ha : p.getKey ("arguments") with
          | none => simp [ha, hn]
          | some a =>
              cases hgi : getImpl ((((a.getKey ("file_path")).bind Json.asStr)).getD "") <;>
                simp [ha, hn, hgi]
        · -- list_functions
          rename_i hn
          cases ha : p.getKey ("arguments") with
          | none => simp [ha, hn]
          | some a =>
              cases hl : lookupIndex idx ((((a.getKey ("file_path")).bind Json.asStr)).getD "") <;>
                simp [ha, hn, hl]
        · -- unknown tool
          rename_i hn1 hn2
          constructor
          · intro hboth
            simpa using hboth.1
          · simp [hn1, hn2]
            rintro (h | h)
            · exact (hn1 h).elim
            · exact (hn2 h).elim
  · -- unknown method
    simp_all [malformedParams]

/-- C7 amended: every emitted response mirrors the request id and never
carries both `result` and `error`; it carries neither exactly in the
`malformedParams` situations (`resources/read` without a string uri
param, `tools/call` without params or — for the two known tools —
without arguments), and exactly one otherwise. -/
theorem C7_amended_response_shape (getImpl : String → Option Json) (idx : Index)
    (req : Request) (r : Response)
    (h : dispatch getImpl idx req = some r) :
    r.jsonrpc = "2.0"
    ∧ r.id = req.id
    ∧ ¬(r.result.isSome = true ∧ r.error.isSome = true)
    ∧ ((r.result = none ∧ r.error = none) ↔ malformedParams req.method req.params = true) := by
  unfold dispatch at h
  cases hid : req.id with
  | none =>
      rw [hid] at h
      cases h
  | some i =>
      rw [hid] at h
      simp only [Option.some.injEq] at h
      subst h
      have hc := dispatchCore_cases getImpl idx req.method req.params
      have hiff := hc.2
      rw [Prod.ext_iff] at hiff
      exact ⟨rfl, rfl, hc.1, hiff⟩

/-- C7 witness for the amended claim: an `initialize` request with id. -/
theorem C7_witness :
    (dispatch (fun _ => none) ([] : Index)
        { jsonrpc := "2.0", id := some (.num 2), method := "initialize", params := none }
      = some { jsonrpc := "2.0", id := some (.num 2),
               result := some initializeResult, error := none })
    ∧ (({ jsonrpc := "2.0", id := some (.num 2),
          result := some initializeResult, error := none } : Response).jsonrpc = "2.0"
       ∧ ({ jsonrpc := "2.0", id := some (.num 2),
            result := some initializeResult, error := none } : Response).id
           = ({ jsonrpc := "2.0", id := some (.num 2), method := "initialize",
                params := none } : Request).id
       ∧ ¬(({ jsonrpc := "2.0", id := some (.num 2),
              result := some initializeResult, error := none } : Response).result.isSome = true
            ∧ ({ jsonrpc := "2.0", id := some (.num 2),
                 result := some initializeResult, error := none } : Response).error.isSome = true)
       ∧ ((({ jsonrpc := "2.0", id := some (.num 2),
              result := some initializeResult, error := none } : Response).result = none
            ∧ ({ jsonrpc := "2.0", id := some (.num 2),
                 result := some initializeResult, error := none } : Response).error = none)
           ↔ malformedParams ("initialize") none = true)) :=
  ⟨rfl,
   C7_amended_response_shape (fun _ => none) ([] : Index)
     { jsonrpc := "2.0", id := some (.num 2), method := "initialize", params := none }
     { jsonrpc := "2.0", id := some (.num 2), result := some initializeResult, error := none }
     rfl⟩
